import Mathlib

/-!
Shallow embedding of the CustomerDataETLPipeline (src/etl.py) targeting its
PostgreSQL store, together with proofs about the embedded operations.

Modelling conventions:
* SQL NULL is `Option.none`; text columns are `Option String`, numeric
  columns `Option ℚ` (exact arithmetic in place of SQL floats), integer
  columns `Option Int`.
* The staging table is a `List StagingRow`; the primary-key constraint of
  the real table is the `Nodup` property of the `customer_id` column, which
  the upsert preserves.
* Each `conn.execute` of the row loop in `load_to_staging` commits on its
  own (one write transaction per row); the single try/except around the
  whole loop means the first failing row stops the loop, the error is
  logged, and the function returns normally.
* `execute_sql` runs one whole-table statement, and on failure logs the
  error and leaves the database unchanged (the `engine.begin()` transaction
  rolls back), never re-raising.
-/

/-- One row of the staging table `staging_customer_data`, with the 19
columns declared in `staging_database_schema` (src/etl.py lines 77-100).
`customer_id` is the primary key and hence non-null inside the table. -/
structure StagingRow where
  customer_id : Int
  category : Option String
  age : Option Int
  gender : Option String
  location : Option String
  color : Option String
  size : Option String
  season : Option String
  item_purchased : Option String
  purchase_amount : Option ℚ
  review_rating : Option ℚ
  subscription_status : Option String
  payment_method : Option String
  shipping_type : Option String
  discount_applied : Option String
  promo_code_used : Option String
  previous_purchase : Option String
  preferred_payment_method : Option String
  frequency_of_purchase : Option String
deriving DecidableEq, Repr

/-- One extracted input row after the `column_mapping` rename in
`load_to_staging`: the same 19 columns under their canonical names, every
value still nullable (a missing `Customer ID` cell is NULL). -/
structure Record where
  customer_id : Option Int
  category : Option String
  age : Option Int
  gender : Option String
  location : Option String
  color : Option String
  size : Option String
  season : Option String
  item_purchased : Option String
  purchase_amount : Option ℚ
  review_rating : Option ℚ
  subscription_status : Option String
  payment_method : Option String
  shipping_type : Option String
  discount_applied : Option String
  promo_code_used : Option String
  previous_purchase : Option String
  preferred_payment_method : Option String
  frequency_of_purchase : Option String
deriving DecidableEq, Repr

/-- The staging row written for a record whose primary key is
`some cid`: every non-primary-key column takes the incoming value
(the `set_` clause of `on_conflict_do_update` lists every column of
`stmt.excluded` that is not a primary key). -/
def recordToRow (cid : Int) (r : Record) : StagingRow where
  customer_id := cid
  category := r.category
  age := r.age
  gender := r.gender
  location := r.location
  color := r.color
  size := r.size
  season := r.season
  item_purchased := r.item_purchased
  purchase_amount := r.purchase_amount
  review_rating := r.review_rating
  subscription_status := r.subscription_status
  payment_method := r.payment_method
  shipping_type := r.shipping_type
  discount_applied := r.discount_applied
  promo_code_used := r.promo_code_used
  previous_purchase := r.previous_purchase
  preferred_payment_method := r.preferred_payment_method
  frequency_of_purchase := r.frequency_of_purchase

/-- The staging table holds a row with primary key `cid`. -/
def HasId (t : List StagingRow) (cid : Int) : Prop :=
  ∃ s ∈ t, s.customer_id = cid

instance (t : List StagingRow) (cid : Int) : Decidable (HasId t cid) :=
  List.decidableBEx _ t

/-- The ON CONFLICT DO UPDATE branch applied to one stored row: the row
with the conflicting key is overwritten with the incoming row, any other
row is kept. -/
def replaceId (w : StagingRow) (s : StagingRow) : StagingRow :=
  if s.customer_id = w.customer_id then w else s

/-- `INSERT ... ON CONFLICT (customer_id) DO UPDATE`: if a row with the
same primary key exists it is overwritten in place, otherwise the new row
is appended. -/
def upsert (t : List StagingRow) (w : StagingRow) : List StagingRow :=
  if HasId t w.customer_id then t.map (replaceId w) else t ++ [w]

/-- The error text produced when a record with a NULL primary key is
inserted (PostgreSQL not-null constraint violation). -/
def nullPkMessage : String :=
  "null value in column customer_id violates not-null constraint"

/-- The row loop of `load_to_staging`: records are upserted in order, each
write committing on its own; the first record whose primary key is NULL
raises, which ends the loop (the try/except surrounds the whole loop), so
the result is the table after the successful writes together with the
error, if any. -/
def loadRows : List Record → List StagingRow → List StagingRow × Option String
  | [], t => (t, none)
  | r :: rs, t =>
    match r.customer_id with
    | some cid => loadRows rs (upsert t (recordToRow cid r))
    | none => (t, some nullPkMessage)

/-- `load_to_staging` (src/etl.py lines 19-64): runs the row loop and, when
the loop raised, appends the error to the log; the exception is swallowed. -/
def load_to_staging (rows : List Record) (t : List StagingRow)
    (log : List String) : List StagingRow × List String :=
  match loadRows rows t with
  | (t2, none) => (t2, log)
  | (t2, some e) => (t2, log ++ [e])

/-- The records actually processed by the row loop: the longest initial
segment whose primary keys are all non-null. -/
def ingestedRecords (rs : List Record) : List Record :=
  rs.takeWhile fun r => r.customer_id.isSome

/-- The staging rows written by the row loop, in write order. -/
def ingestedRows (rs : List Record) : List StagingRow :=
  (ingestedRecords rs).filterMap fun r =>
    match r.customer_id with
    | some cid => some (recordToRow cid r)
    | none => none

/-- Whether the row loop raises: true iff some record has a NULL key. -/
def loadError (rs : List Record) : Option String :=
  if rs.any (fun r => r.customer_id.isNone) then some nullPkMessage else none

/-- The last written row with a given primary key, i.e. the most recently
ingested values for that key. -/
def lastWith (ws : List StagingRow) (cid : Int) : Option StagingRow :=
  (ws.filter fun w => decide (w.customer_id = cid)).getLast?

/-- Iterated in-place overwrite of one stored row by a sequence of
incoming rows (the effect of replaying upserts on a row already present). -/
def patchRow (ws : List StagingRow) (s : StagingRow) : StagingRow :=
  ws.foldl (fun a w => replaceId w a) s

/-- A record with every column NULL, used to build concrete inputs. -/
def blankRecord : Record where
  customer_id := none
  category := none
  age := none
  gender := none
  location := none
  color := none
  size := none
  season := none
  item_purchased := none
  purchase_amount := none
  review_rating := none
  subscription_status := none
  payment_method := none
  shipping_type := none
  discount_applied := none
  promo_code_used := none
  previous_purchase := none
  preferred_payment_method := none
  frequency_of_purchase := none

/-- A staging row with key 0 and every other column NULL, used to build
concrete tables. -/
def blankStagingRow : StagingRow := recordToRow 0 blankRecord

/-- The value semantics on PostgreSQL of one branch of the UPDATE in
`convert_yes_no_to_boolean`:
`CASE WHEN col = 'Yes' THEN TRUE ELSE FALSE END` compared against a
varchar column. `NULL = 'Yes'` is NULL, so NULL falls through to the ELSE
branch; the boolean result is assignment-cast back into the varchar
column, which stores its text form `"true"` / `"false"`. -/
def yesNoCoerce (v : Option String) : Option String :=
  some (if v = some "Yes" then "true" else "false")

/-- Effect of the `convert_yes_no_to_boolean` UPDATE on one staging row:
the three status columns are rewritten, everything else kept. -/
def convertRow (s : StagingRow) : StagingRow :=
  { s with
    subscription_status := yesNoCoerce s.subscription_status
    discount_applied := yesNoCoerce s.discount_applied
    promo_code_used := yesNoCoerce s.promo_code_used }

/-- Effect of the `convert_yes_no_to_boolean` UPDATE on the whole staging
table (a blanket UPDATE with no WHERE clause). -/
def convertStaging (t : List StagingRow) : List StagingRow :=
  t.map convertRow

/-- A row of the derived `customers` table
(`SELECT DISTINCT customer_id, age, gender, subscription_status`). -/
structure CustomerRow where
  customer_id : Int
  age : Option Int
  gender : Option String
  subscription_status : Option String
deriving DecidableEq, Repr

/-- A row of the derived `products` table
(`SELECT DISTINCT item_purchased, category, size, color, season`). -/
structure ProductRow where
  item_purchased : Option String
  category : Option String
  size : Option String
  color : Option String
  season : Option String
deriving DecidableEq, Repr

/-- A row of the derived `purchases` table
(`SELECT customer_id, item_purchased, purchase_amount, location,
review_rating`). -/
structure PurchaseRow where
  customer_id : Int
  item_purchased : Option String
  purchase_amount : Option ℚ
  location : Option String
  review_rating : Option ℚ
deriving DecidableEq, Repr

/-- Projection of one staging row onto the `customers` columns. -/
def customerOfStaging (s : StagingRow) : CustomerRow :=
  ⟨s.customer_id, s.age, s.gender, s.subscription_status⟩

/-- Projection of one staging row onto the `products` columns. -/
def productOfStaging (s : StagingRow) : ProductRow :=
  ⟨s.item_purchased, s.category, s.size, s.color, s.season⟩

/-- Projection of one staging row onto the `purchases` columns. -/
def purchaseOfStaging (s : StagingRow) : PurchaseRow :=
  ⟨s.customer_id, s.item_purchased, s.purchase_amount, s.location, s.review_rating⟩

/-- `CREATE TABLE customers AS SELECT DISTINCT ...` over staging. -/
def deriveCustomers (t : List StagingRow) : List CustomerRow :=
  (t.map customerOfStaging).dedup

/-- `CREATE TABLE products AS SELECT DISTINCT ...` over staging. -/
def deriveProducts (t : List StagingRow) : List ProductRow :=
  (t.map productOfStaging).dedup

/-- `CREATE TABLE purchases AS SELECT ...` over staging (no DISTINCT). -/
def derivePurchases (t : List StagingRow) : List PurchaseRow :=
  t.map purchaseOfStaging

/-- The non-null `review_rating` values of the purchases table, in row
order (the rows `AVG` aggregates over). -/
def nonNullRatings (ps : List PurchaseRow) : List ℚ :=
  ps.filterMap fun p => p.review_rating

/-- `SELECT AVG(review_rating) FROM purchases WHERE review_rating IS NOT
NULL`: NULL over an empty set of rows, otherwise the mean. -/
def avgRating (ps : List PurchaseRow) : Option ℚ :=
  if nonNullRatings ps = [] then none
  else some ((nonNullRatings ps).sum / ((nonNullRatings ps).length : ℚ))

/-- The UPDATE of `update_missing_review_ratings`: every row whose
`review_rating` IS NULL is set to the average computed by the CTE over the
pre-update table; other rows are untouched. -/
def repairRatings (ps : List PurchaseRow) : List PurchaseRow :=
  ps.map fun p =>
    if p.review_rating = none then { p with review_rating := avgRating ps } else p

/-- The database reachable through the engine during `transform_and_load`:
the staging table (created earlier by `staging_database_schema`), the
three derived tables (absent until created), and the set of index names. -/
structure DB where
  staging : List StagingRow
  customers : Option (List CustomerRow)
  products : Option (List ProductRow)
  purchases : Option (List PurchaseRow)
  indexes : List String
deriving DecidableEq, Repr

/-- The whole-table SQL statements the pipeline sends through
`execute_sql`. -/
inductive Stmt where
  | convertYesNo : Stmt
  | createIndex : String → Stmt
  | createCustomers : Stmt
  | createPurchases : Stmt
  | createProducts : Stmt
  | updateRatings : Stmt
deriving DecidableEq, Repr

/-- Error text for `CREATE TABLE`/`CREATE INDEX` on an existing relation. -/
def relationExistsMessage (nm : String) : String :=
  "relation " ++ nm ++ " already exists"

/-- Error text for an UPDATE on a missing relation. -/
def missingRelationMessage (nm : String) : String :=
  "relation " ++ nm ++ " does not exist"

/-- Semantics of one statement against the store: either the updated
database or the error the store raises. -/
def runStmt : Stmt → DB → Except String DB
  | .convertYesNo, db => .ok { db with staging := convertStaging db.staging }
  | .createIndex nm, db =>
    if nm ∈ db.indexes then .error (relationExistsMessage nm)
    else .ok { db with indexes := db.indexes ++ [nm] }
  | .createCustomers, db =>
    match db.customers with
    | some _ => .error (relationExistsMessage "customers")
    | none => .ok { db with customers := some (deriveCustomers db.staging) }
  | .createPurchases, db =>
    match db.purchases with
    | some _ => .error (relationExistsMessage "purchases")
    | none => .ok { db with purchases := some (derivePurchases db.staging) }
  | .createProducts, db =>
    match db.products with
    | some _ => .error (relationExistsMessage "products")
    | none => .ok { db with products := some (deriveProducts db.staging) }
  | .updateRatings, db =>
    match db.purchases with
    | some ps => .ok { db with purchases := some (repairRatings ps) }
    | none => .error (missingRelationMessage "purchases")

/-- Pipeline state: the database, the log stream, and the trace of
statements submitted through `execute_sql` (in submission order). -/
structure St where
  db : DB
  log : List String
  trace : List Stmt
deriving DecidableEq, Repr

/-- `execute_sql` (src/etl.py lines 67-75): run the statement in its own
transaction; on failure log the error and stack trace and return normally
— the exception is never re-raised, and the failed transaction leaves the
database unchanged. -/
def execute_sql (s : Stmt) (st : St) : St :=
  match runStmt s st.db with
  | .ok db2 => { st with db := db2, trace := st.trace ++ [s] }
  | .error e => { st with log := st.log ++ [e], trace := st.trace ++ [s] }

/-- `convert_yes_no_to_boolean` (src/etl.py lines 105-113). -/
def convert_yes_no_to_boolean (st : St) : St :=
  execute_sql .convertYesNo st

/-- `create_index(engine, staging, 'customer_id')` builds the name
`idx_customer_id` (src/etl.py lines 118-121). -/
def create_index (st : St) : St :=
  execute_sql (.createIndex "idx_customer_id") st

/-- `create_customers_table` (src/etl.py lines 123-130). -/
def create_customers_table (st : St) : St :=
  execute_sql .createCustomers st

/-- `create_purchases_table` (src/etl.py lines 142-149). -/
def create_purchases_table (st : St) : St :=
  execute_sql .createPurchases st

/-- `create_products_table` (src/etl.py lines 132-140). -/
def create_products_table (st : St) : St :=
  execute_sql .createProducts st

/-- `update_missing_review_ratings` (src/etl.py lines 151-162). -/
def update_missing_review_ratings (st : St) : St :=
  execute_sql .updateRatings st

/-- `transform_and_load` (src/etl.py lines 171-181): normalize the yes/no
columns, then — only when the `customers` table does not exist — create
the index and the three derived tables (customers, purchases, products, in
source order), and finally repair missing ratings. -/
def transform_and_load (st : St) : St :=
  let st1 := convert_yes_no_to_boolean st
  let st2 :=
    if st1.db.customers.isSome then st1
    else
      create_products_table (create_purchases_table
        (create_customers_table (create_index st1)))
  update_missing_review_ratings st2

lemma replaceId_customer_id (w s : StagingRow) :
    (replaceId w s).customer_id = s.customer_id := by
  unfold replaceId
  split
  · next h => exact h.symm
  · rfl

lemma hasId_map_replaceId (t : List StagingRow) (w : StagingRow) (i : Int) :
    HasId (t.map (replaceId w)) i ↔ HasId t i := by
  unfold HasId
  constructor
  · rintro ⟨s, hs, hcid⟩
    rcases List.mem_map.1 hs with ⟨s0, hs0, rfl⟩
    exact ⟨s0, hs0, by rwa [replaceId_customer_id] at hcid⟩
  · rintro ⟨s, hs, hcid⟩
    exact ⟨replaceId w s, List.mem_map_of_mem _ hs, by rwa [replaceId_customer_id]⟩

lemma hasId_upsert (t : List StagingRow) (w : StagingRow) (i : Int) :
    HasId (upsert t w) i ↔ HasId t i ∨ w.customer_id = i := by
  unfold upsert
  split
  · next hpos =>
    rw [hasId_map_replaceId]
    constructor
    · exact Or.inl
    · rintro (h | h)
      · exact h
      · rcases hpos with ⟨s, hs, hcid⟩
        exact ⟨s, hs, hcid.trans h⟩
  · unfold HasId
    simp [or_comm]

lemma hasId_foldl_upsert (ws : List StagingRow) (t : List StagingRow) (i : Int) :
    HasId (ws.foldl upsert t) i ↔ HasId t i ∨ ∃ w ∈ ws, w.customer_id = i := by
  induction ws generalizing t with
  | nil => simp
  | cons w ws ih =>
    rw [List.foldl_cons, ih, hasId_upsert]
    simp only [List.mem_cons]
    constructor
    · rintro ((h | h) | ⟨w2, hw2, hcid⟩)
      · exact Or.inl h
      · exact Or.inr ⟨w, Or.inl rfl, h⟩
      · exact Or.inr ⟨w2, Or.inr hw2, hcid⟩
    · rintro (h | ⟨w2, hw2 | hw2, hcid⟩)
      · exact Or.inl (Or.inl h)
      · exact Or.inl (Or.inr (hw2 ▸ hcid))
      · exact Or.inr ⟨w2, hw2, hcid⟩

lemma upsert_of_hasId {t : List StagingRow} {w : StagingRow}
    (h : HasId t w.customer_id) : upsert t w = t.map (replaceId w) := by
  unfold upsert
  exact if_pos h

lemma mem_upsert_eq_of_customer_id {t : List StagingRow} {w s : StagingRow}
    (hs : s ∈ upsert t w) (hcid : s.customer_id = w.customer_id) : s = w := by
  unfold upsert at hs
  split at hs
  · rcases List.mem_map.1 hs with ⟨s0, _, rfl⟩
    by_cases h : s0.customer_id = w.customer_id
    · simp [replaceId, h]
    · simp only [replaceId, h, if_neg, not_false_iff] at hcid
  · next hneg =>
    rcases List.mem_append.1 hs with h | h
    · exact absurd ⟨s, h, hcid⟩ hneg
    · simpa using h

lemma mem_foldl_upsert_frame {ws : List StagingRow} {i : Int}
    (hws : ∀ w ∈ ws, w.customer_id ≠ i) :
    ∀ {t : List StagingRow} {s : StagingRow},
      s ∈ ws.foldl upsert t → s.customer_id = i → s ∈ t := by
  induction ws with
  | nil =>
    intro t s hs _
    simpa using hs
  | cons w ws ih =>
    intro t s hs hcid
    have hw : w.customer_id ≠ i := hws w (List.mem_cons_self w ws)
    have htail : ∀ w2 ∈ ws, w2.customer_id ≠ i := fun w2 hw2 =>
      hws w2 (List.mem_cons_of_mem w hw2)
    rw [List.foldl_cons] at hs
    have hmem : s ∈ upsert t w := ih htail hs hcid
    unfold upsert at hmem
    split at hmem
    · rcases List.mem_map.1 hmem with ⟨s0, hs0, rfl⟩
      unfold replaceId at hcid ⊢
      split
      · next heq =>
        simp only [replaceId, heq, if_pos] at hcid
        exact absurd hcid hw
      · exact hs0
    · rcases List.mem_append.1 hmem with h | h
      · exact h
      · have : s = w := by simpa using h
        exact absurd (this ▸ hcid) hw

lemma mem_foldl_upsert_lastWith {ws : List StagingRow} :
    ∀ {t : List StagingRow} {s w : StagingRow},
      s ∈ ws.foldl upsert t → lastWith ws s.customer_id = some w → s = w := by
  induction ws with
  | nil =>
    intro t s w _ hlast
    simp [lastWith] at hlast
  | cons w0 ws ih =>
    intro t s w hs hlast
    rw [List.foldl_cons] at hs
    by_cases hcid : w0.customer_id = s.customer_id
    · rcases hfil : ws.filter (fun x => decide (x.customer_id = s.customer_id)) with
        _ | ⟨a, l⟩
      · -- no later row touches this key: the write of w0 survives
        have hlast0 : lastWith (w0 :: ws) s.customer_id = some w0 := by
          simp [lastWith, List.filter_cons, hcid, hfil]
        rw [hlast0] at hlast
        have hnone : ∀ w2 ∈ ws, w2.customer_id ≠ s.customer_id := by
          intro w2 hw2 h2
          have : w2 ∈ ws.filter (fun x => decide (x.customer_id = s.customer_id)) :=
            List.mem_filter.2 ⟨hw2, by simp [h2]⟩
          rw [hfil] at this
          simp at this
        have hmem : s ∈ upsert t w0 := mem_foldl_upsert_frame hnone hs rfl
        have : s = w0 := mem_upsert_eq_of_customer_id hmem hcid.symm
        rw [this]
        exact Option.some.inj hlast
      · -- a later row with the same key decides the final value
        have : lastWith (w0 :: ws) s.customer_id = lastWith ws s.customer_id := by
          simp [lastWith, List.filter_cons, hcid, hfil, List.getLast?_cons_cons]
        rw [this] at hlast
        exact ih hs hlast
    · have : lastWith (w0 :: ws) s.customer_id = lastWith ws s.customer_id := by
        simp [lastWith, List.filter_cons, hcid]
      rw [this] at hlast
      exact ih hs hlast

lemma foldl_upsert_of_allPresent {ws : List StagingRow} :
    ∀ {T : List StagingRow}, (∀ w ∈ ws, HasId T w.customer_id) →
      ws.foldl upsert T = T.map (patchRow ws) := by
  induction ws with
  | nil =>
    intro T _
    rw [List.foldl_nil]
    unfold patchRow
    simp
  | cons w ws ih =>
    intro T hT
    rw [List.foldl_cons, upsert_of_hasId (hT w (List.mem_cons_self w ws))]
    have hmap : ∀ w2 ∈ ws, HasId (T.map (replaceId w)) w2.customer_id := by
      intro w2 hw2
      exact (hasId_map_replaceId T w _).2 (hT w2 (List.mem_cons_of_mem w hw2))
    rw [ih hmap, List.map_map]
    rfl

lemma patchRow_eq_lastWith (ws : List StagingRow) :
    ∀ s : StagingRow, patchRow ws s = (lastWith ws s.customer_id).getD s := by
  induction ws with
  | nil =>
    intro s
    simp [patchRow, lastWith]
  | cons w ws ih =>
    intro s
    have hstep : patchRow (w :: ws) s = patchRow ws (replaceId w s) := rfl
    by_cases hcid : s.customer_id = w.customer_id
    · have hrep : replaceId w s = w := by simp [replaceId, hcid]
      rw [hstep, hrep, ih w]
      rcases hfil : ws.filter (fun x => decide (x.customer_id = s.customer_id)) with
        _ | ⟨a, l⟩
      · have h1 : lastWith ws w.customer_id = none := by
          simp [lastWith, ← hcid, hfil]
        have h2 : lastWith (w :: ws) s.customer_id = some w := by
          simp [lastWith, List.filter_cons, hcid.symm, ← hcid, hfil]
        rw [h1, h2]
        rfl
      · have hsome : (lastWith ws s.customer_id).isSome := by
          rw [lastWith, hfil]
          exact List.getLast?_isSome.2 (by simp)
        obtain ⟨v, hv⟩ := Option.isSome_iff_exists.1 hsome
        have h1 : lastWith (w :: ws) s.customer_id = lastWith ws s.customer_id := by
          unfold lastWith
          rw [List.filter_cons, if_pos (by simp [hcid.symm]), hfil,
            List.getLast?_cons_cons]
        have hv2 : lastWith ws w.customer_id = some v := hcid ▸ hv
        rw [h1]
        simp [hv, hv2]
    · have hrep : replaceId w s = s := by
        simp [replaceId, hcid]
      have h1 : lastWith (w :: ws) s.customer_id = lastWith ws s.customer_id := by
        unfold lastWith
        rw [List.filter_cons, if_neg (by simpa using Ne.symm hcid)]
      rw [hstep, hrep, ih s, h1]

lemma foldl_upsert_idem (ws : List StagingRow) (t : List StagingRow) :
    ws.foldl upsert (ws.foldl upsert t) = ws.foldl upsert t := by
  have hpres : ∀ w ∈ ws, HasId (ws.foldl upsert t) w.customer_id := by
    intro w hw
    exact (hasId_foldl_upsert ws t _).2 (Or.inr ⟨w, hw, rfl⟩)
  rw [foldl_upsert_of_allPresent hpres]
  have hfix : ∀ s ∈ ws.foldl upsert t, patchRow ws s = s := by
    intro s hs
    rw [patchRow_eq_lastWith]
    rcases hlast : lastWith ws s.customer_id with _ | w
    · rfl
    · exact (mem_foldl_upsert_lastWith hs hlast).symm ▸ rfl
  calc (ws.foldl upsert t).map (patchRow ws)
      = (ws.foldl upsert t).map (fun s => s) := List.map_congr_left hfix
    _ = ws.foldl upsert t := List.map_id' _

lemma loadRows_eq_foldl (rs : List Record) :
    ∀ t : List StagingRow,
      loadRows rs t = ((ingestedRows rs).foldl upsert t, loadError rs) := by
  induction rs with
  | nil =>
    intro t
    simp [loadRows, ingestedRows, ingestedRecords, loadError]
  | cons r rs ih =>
    intro t
    rcases hcid : r.customer_id with _ | cid
    · simp [loadRows, hcid, ingestedRows, ingestedRecords, loadError,
        List.takeWhile_cons, Option.isSome]
    · have h1 : ingestedRows (r :: rs) =
          recordToRow cid r :: ingestedRows rs := by
        simp [ingestedRows, ingestedRecords, List.takeWhile_cons, hcid]
    
      have h2 : loadError (r :: rs) = loadError rs := by
        simp [loadError, hcid, List.any_cons, Option.isNone]
      rw [loadRows, hcid]
      simp only []
      rw [ih, h1, h2, List.foldl_cons]

lemma hasId_iff_mem_keys (t : List StagingRow) (i : Int) :
    HasId t i ↔ i ∈ t.map (fun s => s.customer_id) := by
  unfold HasId
  simp [List.mem_map]

lemma keys_upsert_of_hasId {t : List StagingRow} {w : StagingRow}
    (h : HasId t w.customer_id) :
    (upsert t w).map (fun s => s.customer_id) = t.map (fun s => s.customer_id) := by
  rw [upsert_of_hasId h, List.map_map]
  exact List.map_congr_left fun s _ => replaceId_customer_id w s

lemma nodup_keys_upsert {t : List StagingRow} (w : StagingRow)
    (h : (t.map (fun s => s.customer_id)).Nodup) :
    ((upsert t w).map (fun s => s.customer_id)).Nodup := by
  by_cases hid : HasId t w.customer_id
  · rwa [keys_upsert_of_hasId hid]
  · unfold upsert
    rw [if_neg hid, List.map_append]
    have hni : w.customer_id ∉ t.map (fun s => s.customer_id) := by
      rw [← hasId_iff_mem_keys]
      exact hid
    simp [List.nodup_append, h, hni]

lemma nodup_keys_foldl_upsert (ws : List StagingRow) :
    ∀ {t : List StagingRow}, (t.map (fun s => s.customer_id)).Nodup →
      ((ws.foldl upsert t).map (fun s => s.customer_id)).Nodup := by
  induction ws with
  | nil =>
    intro t h
    exact h
  | cons w ws ih =>
    intro t h
    rw [List.foldl_cons]
    exact ih (nodup_keys_upsert w h)

lemma filter_singleton_of_nodup_keys {T : List StagingRow} {i : Int}
    (hnd : (T.map (fun s => s.customer_id)).Nodup) (hid : HasId T i) :
    ∃ s, T.filter (fun x => decide (x.customer_id = i)) = [s] ∧
      s ∈ T ∧ s.customer_id = i := by
  induction T with
  | nil =>
    rcases hid with ⟨s, hs, _⟩
    simp at hs
  | cons a T ih =>
    rw [List.map_cons, List.nodup_cons] at hnd
    by_cases ha : a.customer_id = i
    · refine ⟨a, ?_, List.mem_cons_self a T, ha⟩
      rw [List.filter_cons, if_pos (by simp [ha])]
      have : T.filter (fun x => decide (x.customer_id = i)) = [] := by
        apply List.filter_eq_nil_iff.2
        intro x hx
        simp only [decide_eq_true_eq]
        intro hxi
        exact hnd.1 (by
          rw [← ha] at hxi
          exact hxi ▸ List.mem_map_of_mem (fun s => s.customer_id) hx)
      rw [this]
    · have hidT : HasId T i := by
        rcases hid with ⟨s, hs, hsi⟩
        rcases List.mem_cons.1 hs with rfl | hs
        · exact absurd hsi ha
        · exact ⟨s, hs, hsi⟩
      rcases ih hnd.2 hidT with ⟨s, hfil, hmem, hsi⟩
      refine ⟨s, ?_, List.mem_cons_of_mem a hmem, hsi⟩
      rw [List.filter_cons, if_neg (by simpa using ha), hfil]

lemma mem_ingestedRows_of_valid {rs : List Record}
    (hv : ∀ r ∈ rs, r.customer_id.isSome) {r : Record} {cid : Int}
    (hr : r ∈ rs) (hcid : r.customer_id = some cid) :
    recordToRow cid r ∈ ingestedRows rs := by
  unfold ingestedRows ingestedRecords
  rw [List.takeWhile_eq_self_iff.2 hv]
  exact List.mem_filterMap.2 ⟨r, hr, by rw [hcid]⟩

lemma customer_id_mem_ingestedRows {rs : List Record} {w : StagingRow}
    (hw : w ∈ ingestedRows rs) :
    ∃ r ∈ rs, r.customer_id = some w.customer_id := by
  unfold ingestedRows at hw
  rcases List.mem_filterMap.1 hw with ⟨r, hr, hmk⟩
  rcases hcid : r.customer_id with _ | cid
  · rw [hcid] at hmk
    simp at hmk
  · rw [hcid] at hmk
    have hrw : recordToRow cid r = w := by
      simpa using hmk
    refine ⟨r, (List.takeWhile_sublist _).subset hr, ?_⟩
    rw [hcid, ← hrw]
    rfl

/-- A record with the given primary key and every other column NULL. -/
def goodRecord (cid : Int) : Record :=
  { blankRecord with customer_id := some cid }

/-- A record with key 1 and category "A". -/
def recA : Record :=
  { blankRecord with customer_id := some 1, category := some "A" }

/-- A record with key 1 and category "B". -/
def recB : Record :=
  { blankRecord with customer_id := some 1, category := some "B" }

lemma loadRows_append_bad {bad : Record} (hbad : bad.customer_id = none)
    (post : List Record) :
    ∀ pre : List Record, (∀ r ∈ pre, r.customer_id.isSome) →
      ∀ t : List StagingRow,
        loadRows (pre ++ bad :: post) t = ((loadRows pre t).1, some nullPkMessage) ∧
        (loadRows pre t).2 = none := by
  intro pre
  induction pre with
  | nil =>
    intro _ t
    constructor
    · simp [loadRows, hbad]
    · rfl
  | cons r pre ih =>
    intro hv t
    obtain ⟨cid, hcid⟩ :=
      Option.isSome_iff_exists.1 (hv r (List.mem_cons_self r pre))
    have htail : ∀ r2 ∈ pre, r2.customer_id.isSome := fun r2 h2 =>
      hv r2 (List.mem_cons_of_mem r h2)
    simp only [List.cons_append, loadRows, hcid]
    exact ih htail (upsert t (recordToRow cid r))

/-- C1 (amended): a row whose primary key is null does NOT abort only its
own write — the single try/except around the whole row loop of
`load_to_staging` means it aborts the remainder of the batch. The rows
before the failing row are written and kept, the error is logged once, the
function returns normally, and no later row of the batch (valid or not) is
loaded. -/
theorem loader_null_pk_aborts_rest_of_batch (pre : List Record) (bad : Record)
    (post : List Record) (t : List StagingRow) (log : List String)
    (hpre : ∀ r ∈ pre, r.customer_id.isSome) (hbad : bad.customer_id = none) :
    load_to_staging (pre ++ bad :: post) t log =
      ((loadRows pre t).1, log ++ [nullPkMessage]) ∧
    (loadRows pre t).2 = none := by
  obtain ⟨h1, h2⟩ := loadRows_append_bad hbad post pre hpre t
  refine ⟨?_, h2⟩
  unfold load_to_staging
  rw [h1]

/-- C1 witness: a batch with key 7, then a null key, then key 5, on an
empty staging table: the result keeps the row for key 7, logs one error,
and never writes key 5. -/
theorem loader_null_pk_aborts_rest_of_batch_witness :
    load_to_staging ([goodRecord 7] ++ blankRecord :: [goodRecord 5]) [] [] =
      ((loadRows [goodRecord 7] []).1, [] ++ [nullPkMessage]) ∧
    (loadRows [goodRecord 7] []).2 = none :=
  loader_null_pk_aborts_rest_of_batch [goodRecord 7] blankRecord [goodRecord 5]
    [] [] (by decide) (by decide)

/-- C1 counterexample: the claim says every other valid row of the batch
still loads; in the batch (key 7, null key, key 5) the valid row with key
5 is NOT loaded — the staging table ends with only the key-7 row. -/
theorem loader_valid_row_after_failure_not_loaded :
    (goodRecord 5).customer_id = some 5 ∧
    (load_to_staging [goodRecord 7, blankRecord, goodRecord 5] [] []).1 =
      [recordToRow 7 (goodRecord 7)] := by
  decide

/-- C5: loading one record whose `customer_id` already exists in staging
overwrites every non-primary-key column of the matching row with the
incoming value (the stored row becomes exactly `recordToRow cid r`, whose
every non-key column is the incoming one) and leaves every row with a
different `customer_id` unchanged in place. -/
theorem upsert_overwrites_nonkey_and_frames_others (t : List StagingRow)
    (r : Record) (cid : Int) (hcid : r.customer_id = some cid)
    (hid : HasId t cid) :
    loadRows [r] t = (t.map (replaceId (recordToRow cid r)), none) ∧
    (∀ s ∈ t, s.customer_id ≠ cid → replaceId (recordToRow cid r) s = s) ∧
    (recordToRow cid r).customer_id = cid ∧
    (recordToRow cid r).category = r.category ∧
    (recordToRow cid r).age = r.age ∧
    (recordToRow cid r).gender = r.gender ∧
    (recordToRow cid r).location = r.location ∧
    (recordToRow cid r).color = r.color ∧
    (recordToRow cid r).size = r.size ∧
    (recordToRow cid r).season = r.season ∧
    (recordToRow cid r).item_purchased = r.item_purchased ∧
    (recordToRow cid r).purchase_amount = r.purchase_amount ∧
    (recordToRow cid r).review_rating = r.review_rating ∧
    (recordToRow cid r).subscription_status = r.subscription_status ∧
    (recordToRow cid r).payment_method = r.payment_method ∧
    (recordToRow cid r).shipping_type = r.shipping_type ∧
    (recordToRow cid r).discount_applied = r.discount_applied ∧
    (recordToRow cid r).promo_code_used = r.promo_code_used ∧
    (recordToRow cid r).previous_purchase = r.previous_purchase ∧
    (recordToRow cid r).preferred_payment_method = r.preferred_payment_method ∧
    (recordToRow cid r).frequency_of_purchase = r.frequency_of_purchase := by
  refine ⟨?_, ?_, rfl, rfl, rfl, rfl, rfl, rfl, rfl, rfl, rfl, rfl, rfl, rfl,
    rfl, rfl, rfl, rfl, rfl, rfl, rfl⟩
  · simp only [loadRows, hcid]
    rw [upsert_of_hasId (by exact hid)]
  · intro s _ hne
    simp [replaceId, recordToRow, hne]

/-- C5 witness: upserting the key-1 record `recB` into a table holding the
key-1 row built from `recA` yields exactly the key-1 row built from
`recB`. -/
theorem upsert_overwrites_nonkey_and_frames_others_witness :
    loadRows [recB] [recordToRow 1 recA] = ([recordToRow 1 recB], none) := by
  have h := (upsert_overwrites_nonkey_and_frames_others [recordToRow 1 recA]
    recB 1 (by decide) ⟨recordToRow 1 recA, by simp, rfl⟩).1
  rw [h]
  decide

/-- C6 (amended): running `load_to_staging` twice with identical input
yields the same staging table as running it once, for every input row set
and every initial table (even inputs whose batch fails part-way). The
"exactly one row per distinct customer_id, holding the most recently
ingested values" guarantee holds for the ids actually ingested, provided
every input row has a non-null `customer_id` and the initial table
satisfies the primary-key uniqueness invariant. -/
theorem loader_idempotent_and_last_write_wins (rows : List Record)
    (t : List StagingRow) :
    (loadRows rows (loadRows rows t).1).1 = (loadRows rows t).1 ∧
    ((∀ r ∈ rows, r.customer_id.isSome) →
      (t.map (fun s => s.customer_id)).Nodup →
      ∀ r ∈ rows, ∀ cid : Int, r.customer_id = some cid →
        ∃ w, lastWith (ingestedRows rows) cid = some w ∧
          (loadRows rows t).1.filter (fun s => decide (s.customer_id = cid)) = [w]) := by
  constructor
  · rw [loadRows_eq_foldl rows t]
    rw [loadRows_eq_foldl rows]
    simp [foldl_upsert_idem]
  · intro hv hnd r hr cid hcid
    have hw0 : recordToRow cid r ∈ ingestedRows rows :=
      mem_ingestedRows_of_valid hv hr hcid
    have hT : (loadRows rows t).1 = (ingestedRows rows).foldl upsert t := by
      rw [loadRows_eq_foldl]
    have hid : HasId ((ingestedRows rows).foldl upsert t) cid :=
      (hasId_foldl_upsert _ t cid).2 (Or.inr ⟨recordToRow cid r, hw0, rfl⟩)
    obtain ⟨s, hfil, hmem, hsi⟩ :=
      filter_singleton_of_nodup_keys (nodup_keys_foldl_upsert _ hnd) hid
    have hne : (ingestedRows rows).filter
        (fun x => decide (x.customer_id = cid)) ≠ [] := by
      intro hnil
      have := List.filter_eq_nil_iff.1 hnil _ hw0
      simp [recordToRow] at this
    have hsome : (lastWith (ingestedRows rows) cid).isSome := by
      rw [lastWith]
      exact List.getLast?_isSome.2 hne
    obtain ⟨w, hw⟩ := Option.isSome_iff_exists.1 hsome
    have hsw : s = w :=
      mem_foldl_upsert_lastWith hmem (by rw [hsi]; exact hw)
    refine ⟨w, hw, ?_⟩
    rw [hT, hfil, hsw]

/-- C6 witness: two key-1 records in order, loaded into an empty table —
the load is idempotent and the single key-1 row holds the values of the
later record `recB`. -/
theorem loader_idempotent_and_last_write_wins_witness :
    (loadRows [recA, recB] (loadRows [recA, recB] []).1).1 =
      (loadRows [recA, recB] []).1 ∧
    ∃ w, lastWith (ingestedRows [recA, recB]) 1 = some w ∧
      (loadRows [recA, recB] []).1.filter
        (fun s => decide (s.customer_id = 1)) = [w] :=
  ⟨(loader_idempotent_and_last_write_wins [recA, recB] []).1,
   (loader_idempotent_and_last_write_wins [recA, recB] []).2 (by decide)
     (by decide) recB (by decide) 1 (by decide)⟩

/-- C6 counterexample: with input (null key, key 5) on an empty table the
loader returns an empty staging table, although customer_id 5 was seen in
the input — there is no row for a seen id, refuting the unconditional
"exactly one row per distinct customer_id seen" guarantee. -/
theorem loader_seen_id_missing_after_failure :
    (goodRecord 5).customer_id = some 5 ∧
    load_to_staging [blankRecord, goodRecord 5] [] [] = ([], [nullPkMessage]) := by
  decide

/-- A staging row with key 1, `subscription_status` "Yes",
`discount_applied` "No", `promo_code_used` NULL. -/
def yesRow : StagingRow :=
  { blankStagingRow with
    customer_id := 1
    subscription_status := some "Yes"
    discount_applied := some "No" }

/-- A pipeline state whose staging table holds exactly `yesRow` and whose
derived tables do not exist yet. -/
def stY : St := ⟨⟨[yesRow], none, none, none, []⟩, [], []⟩

/-- C4: after `convert_yes_no_to_boolean` runs, each staging row's
`subscription_status`, `discount_applied` and `promo_code_used` hold the
stored boolean text "true" exactly when the pre-normalization value was
the text "Yes"; every other value — "No", NULL, anything else — yields the
stored boolean text "false". -/
theorem convert_coerces_yes_to_true_else_false (st : St) (r : StagingRow)
    (hr : r ∈ st.db.staging) :
    convertRow r ∈ (convert_yes_no_to_boolean st).db.staging ∧
    ((convertRow r).subscription_status = some "true" ↔
      r.subscription_status = some "Yes") ∧
    ((convertRow r).subscription_status = some "false" ↔
      ¬ r.subscription_status = some "Yes") ∧
    ((convertRow r).discount_applied = some "true" ↔
      r.discount_applied = some "Yes") ∧
    ((convertRow r).discount_applied = some "false" ↔
      ¬ r.discount_applied = some "Yes") ∧
    ((convertRow r).promo_code_used = some "true" ↔
      r.promo_code_used = some "Yes") ∧
    ((convertRow r).promo_code_used = some "false" ↔
      ¬ r.promo_code_used = some "Yes") := by
  have hmem : (convert_yes_no_to_boolean st).db.staging =
      convertStaging st.db.staging := rfl
  refine ⟨?_, ?_, ?_, ?_, ?_, ?_, ?_⟩
  · rw [hmem]
    exact List.mem_map_of_mem convertRow hr
  · by_cases h : r.subscription_status = some "Yes" <;>
      simp [convertRow, yesNoCoerce, h]
  · by_cases h : r.subscription_status = some "Yes" <;>
      simp [convertRow, yesNoCoerce, h]
  · by_cases h : r.discount_applied = some "Yes" <;>
      simp [convertRow, yesNoCoerce, h]
  · by_cases h : r.discount_applied = some "Yes" <;>
      simp [convertRow, yesNoCoerce, h]
  · by_cases h : r.promo_code_used = some "Yes" <;>
      simp [convertRow, yesNoCoerce, h]
  · by_cases h : r.promo_code_used = some "Yes" <;>
      simp [convertRow, yesNoCoerce, h]

/-- C4 witness: on the row with "Yes"/"No"/NULL status columns, the
converted row sits in the converted table and its columns are "true",
"false" and "false" respectively. -/
theorem convert_coerces_yes_to_true_else_false_witness :
    convertRow yesRow ∈ (convert_yes_no_to_boolean stY).db.staging ∧
    ((convertRow yesRow).subscription_status = some "true" ↔
      yesRow.subscription_status = some "Yes") ∧
    ((convertRow yesRow).subscription_status = some "false" ↔
      ¬ yesRow.subscription_status = some "Yes") ∧
    ((convertRow yesRow).discount_applied = some "true" ↔
      yesRow.discount_applied = some "Yes") ∧
    ((convertRow yesRow).discount_applied = some "false" ↔
      ¬ yesRow.discount_applied = some "Yes") ∧
    ((convertRow yesRow).promo_code_used = some "true" ↔
      yesRow.promo_code_used = some "Yes") ∧
    ((convertRow yesRow).promo_code_used = some "false" ↔
      ¬ yesRow.promo_code_used = some "Yes") :=
  convert_coerces_yes_to_true_else_false stY yesRow (by decide)

/-- C2 evaluation at the failing input: one staging row whose
`subscription_status` was originally "Yes". The first application of
`convert_yes_no_to_boolean` stores the boolean text "true"; the second
application compares that "true" against 'Yes', gets false, and stores
"false" — the row that held true after run one holds false after run two,
so re-applying the UPDATE to already-coerced data corrupts values instead
of being idempotent. -/
theorem convert_second_application_flips_true_to_false :
    ((convert_yes_no_to_boolean stY).db.staging.map
      (fun s => s.subscription_status)) = [some "true"] ∧
    ((convert_yes_no_to_boolean (convert_yes_no_to_boolean stY)).db.staging.map
      (fun s => s.subscription_status)) = [some "false"] := by
  decide

/-- A purchases row for customer 7 with amount 50 and a NULL rating
(the spec's scenario row). -/
def nullRatingPurchase : PurchaseRow := ⟨7, none, some 50, none, none⟩

/-- A second purchases row with a NULL rating. -/
def nullRatingPurchase2 : PurchaseRow := ⟨8, none, some 20, none, none⟩

/-- A purchases row with the given customer and rating. -/
def ratedPurchase (cid : Int) (x : ℚ) : PurchaseRow := ⟨cid, none, none, none, some x⟩

/-- The spec's repair scenario: a NULL rating plus ratings 4 and 2. -/
def ps0 : List PurchaseRow :=
  [nullRatingPurchase, ratedPurchase 1 4, ratedPurchase 2 2]

/-- The mean of the non-null ratings (the value the AVG CTE computes when
at least one rating is non-null). -/
def meanRating (ps : List PurchaseRow) : ℚ :=
  (nonNullRatings ps).sum / ((nonNullRatings ps).length : ℚ)

/-- C3 (amended): when the purchases table has at least one non-null
`review_rating`, `update_missing_review_ratings` leaves no null rating:
every previously-null rating becomes exactly the mean of the previously
non-null ratings (exact rational arithmetic in place of "within
floating-point tolerance"), and every previously-non-null rating is
unchanged. -/
theorem repair_fills_nulls_with_mean (ps : List PurchaseRow)
    (h : ∃ p ∈ ps, p.review_rating ≠ none) :
    (∀ q ∈ repairRatings ps, q.review_rating ≠ none) ∧
    (repairRatings ps).length = ps.length ∧
    avgRating ps = some (meanRating ps) ∧
    ∀ i (h1 : i < ps.length) (h2 : i < (repairRatings ps).length),
      ((ps.get ⟨i, h1⟩).review_rating = none →
        (repairRatings ps).get ⟨i, h2⟩ =
          { (ps.get ⟨i, h1⟩) with review_rating := some (meanRating ps) }) ∧
      ((ps.get ⟨i, h1⟩).review_rating ≠ none →
        (repairRatings ps).get ⟨i, h2⟩ = ps.get ⟨i, h1⟩) := by
  have hnn : nonNullRatings ps ≠ [] := by
    rcases h with ⟨p, hp, hne⟩
    rcases hrr : p.review_rating with _ | x
    · exact absurd hrr hne
    · intro hnil
      have hx : x ∈ nonNullRatings ps :=
        List.mem_filterMap.2 ⟨p, hp, hrr⟩
      rw [hnil] at hx
      simp at hx
  have havg : avgRating ps = some (meanRating ps) := by
    unfold avgRating meanRating
    rw [if_neg hnn]
  refine ⟨?_, List.length_map ps _, havg, ?_⟩
  · intro q hq
    rcases List.mem_map.1 hq with ⟨p, _, rfl⟩
    by_cases hp : p.review_rating = none
    · rw [if_pos hp]
      simp [havg]
    · rw [if_neg hp]
      exact hp
  · intro i h1 h2
    have hget : (repairRatings ps).get ⟨i, h2⟩ =
        if (ps.get ⟨i, h1⟩).review_rating = none
        then { (ps.get ⟨i, h1⟩) with review_rating := avgRating ps }
        else ps.get ⟨i, h1⟩ := by
      unfold repairRatings
      rw [List.get_map]
    constructor
    · intro hniL
      rw [hget, if_pos hniL, havg]
    · intro hniL
      rw [hget, if_neg hniL]

/-- C3 witness: on the scenario table (NULL, 4, 2) the hypothesis holds,
the mean is 3, and the repaired first row is customer 7's purchase with
rating 3. -/
theorem repair_fills_nulls_with_mean_witness :
    avgRating ps0 = some 3 ∧
    (repairRatings ps0).get ⟨0, by decide⟩ =
      { nullRatingPurchase with review_rating := some 3 } := by
  have h := repair_fills_nulls_with_mean ps0
    ⟨ratedPurchase 1 4, by decide, by decide⟩
  have h1 : nonNullRatings ps0 = [4, 2] := by decide
  have hsum : meanRating ps0 = 3 := by
    unfold meanRating
    rw [h1]
    simp only [List.sum_cons, List.sum_nil, List.length_cons, List.length_nil]
    norm_num
  constructor
  · rw [h.2.2.1, hsum]
  · have hg := (h.2.2.2 0 (by decide) (by decide)).1 (by decide)
    rw [hg, hsum]
    rfl

/-- C3 counterexample: a purchases table with one row whose rating is
NULL. The table is nonempty, yet after `update_missing_review_ratings`
the rating is still NULL (the AVG over zero non-null rows is NULL), so
"for every purchases table containing at least one row, no row has a null
review_rating afterwards" is false. -/
theorem repair_leaves_null_on_all_null_table :
    repairRatings [nullRatingPurchase] = [nullRatingPurchase] ∧
    nullRatingPurchase.review_rating = none := by
  decide

lemma repairRatings_eq_self_of_all_null (ps : List PurchaseRow)
    (h : ∀ p ∈ ps, p.review_rating = none) : repairRatings ps = ps := by
  have hnn : nonNullRatings ps = [] :=
    List.filterMap_eq_nil_iff.2 fun p hp => by simp [h p hp]
  have havg : avgRating ps = none := by
    unfold avgRating
    rw [if_pos hnn]
  unfold repairRatings
  calc ps.map (fun p =>
        if p.review_rating = none
        then { p with review_rating := avgRating ps } else p)
      = ps.map (fun p => p) := by
        apply List.map_congr_left
        intro p hp
        rw [if_pos (h p hp), havg, ← h p hp]
    _ = ps := List.map_id' ps

lemma repairRatings_no_null_of_nonNull_ne_nil {ps : List PurchaseRow}
    (hnn : nonNullRatings ps ≠ []) :
    ∀ q ∈ repairRatings ps, q.review_rating ≠ none := by
  intro q hq
  rcases List.mem_map.1 hq with ⟨p, _, rfl⟩
  by_cases hp : p.review_rating = none
  · rw [if_pos hp]
    show avgRating ps ≠ none
    unfold avgRating
    rw [if_neg hnn]
    simp
  · rw [if_neg hp]
    exact hp

lemma repairRatings_idem (ps : List PurchaseRow) :
    repairRatings (repairRatings ps) = repairRatings ps := by
  by_cases hnn : nonNullRatings ps = []
  · have hall : ∀ p ∈ ps, p.review_rating = none := by
      intro p hp
      rcases hrr : p.review_rating with _ | x
      · rfl
      · have hx : x ∈ nonNullRatings ps := List.mem_filterMap.2 ⟨p, hp, hrr⟩
        rw [hnn] at hx
        simp at hx
    rw [repairRatings_eq_self_of_all_null ps hall,
      repairRatings_eq_self_of_all_null ps hall]
  · have hno := repairRatings_no_null_of_nonNull_ne_nil hnn
    show (repairRatings ps).map _ = repairRatings ps
    calc (repairRatings ps).map (fun p =>
          if p.review_rating = none
          then { p with review_rating := avgRating (repairRatings ps) } else p)
        = (repairRatings ps).map (fun p => p) := by
          apply List.map_congr_left
          intro p hp
          rw [if_neg (hno p hp)]
      _ = repairRatings ps := List.map_id' _

/-- C9: when every `review_rating` in purchases is NULL, the AVG over the
non-null rows is NULL, the UPDATE writes NULL back into every null row,
and the purchases table is unchanged. -/
theorem repair_is_no_op_when_all_ratings_null (ps : List PurchaseRow)
    (h : ∀ p ∈ ps, p.review_rating = none) : repairRatings ps = ps :=
  repairRatings_eq_self_of_all_null ps h

/-- C9 witness: a two-row all-null purchases table is returned unchanged
by the repair step. -/
theorem repair_is_no_op_when_all_ratings_null_witness :
    (∀ p ∈ [nullRatingPurchase, nullRatingPurchase2], p.review_rating = none) ∧
    repairRatings [nullRatingPurchase, nullRatingPurchase2] =
      [nullRatingPurchase, nullRatingPurchase2] :=
  ⟨by decide,
   repair_is_no_op_when_all_ratings_null [nullRatingPurchase, nullRatingPurchase2]
     (by decide)⟩

lemma execute_sql_trace (s : Stmt) (st : St) :
    (execute_sql s st).trace = st.trace ++ [s] := by
  unfold execute_sql
  cases runStmt s st.db <;> rfl

lemma transform_and_load_eq (st : St) :
    transform_and_load st =
      update_missing_review_ratings
        (if (convert_yes_no_to_boolean st).db.customers.isSome
         then convert_yes_no_to_boolean st
         else create_products_table (create_purchases_table
           (create_customers_table (create_index (convert_yes_no_to_boolean st))))) :=
  rfl

lemma convert_db (st : St) :
    (convert_yes_no_to_boolean st).db =
      { st.db with staging := convertStaging st.db.staging } := rfl

lemma create_index_db_fields (st : St) :
    (create_index st).db.staging = st.db.staging ∧
    (create_index st).db.customers = st.db.customers ∧
    (create_index st).db.products = st.db.products ∧
    (create_index st).db.purchases = st.db.purchases := by
  unfold create_index execute_sql
  by_cases h : "idx_customer_id" ∈ st.db.indexes
  · have hrun : runStmt (.createIndex "idx_customer_id") st.db =
        .error (relationExistsMessage "idx_customer_id") := by
      simp only [runStmt]
      rw [if_pos h]
    rw [hrun]
    exact ⟨rfl, rfl, rfl, rfl⟩
  · have hrun : runStmt (.createIndex "idx_customer_id") st.db =
        .ok { st.db with indexes := st.db.indexes ++ ["idx_customer_id"] } := by
      simp only [runStmt]
      rw [if_neg h]
    rw [hrun]
    exact ⟨rfl, rfl, rfl, rfl⟩

lemma create_customers_db {st : St} (h : st.db.customers = none) :
    (create_customers_table st).db =
      { st.db with customers := some (deriveCustomers st.db.staging) } := by
  unfold create_customers_table execute_sql
  have hrun : runStmt .createCustomers st.db =
      .ok { st.db with customers := some (deriveCustomers st.db.staging) } := by
    simp only [runStmt]
    rw [h]
  rw [hrun]

lemma create_purchases_db {st : St} (h : st.db.purchases = none) :
    (create_purchases_table st).db =
      { st.db with purchases := some (derivePurchases st.db.staging) } := by
  unfold create_purchases_table execute_sql
  have hrun : runStmt .createPurchases st.db =
      .ok { st.db with purchases := some (derivePurchases st.db.staging) } := by
    simp only [runStmt]
    rw [h]
  rw [hrun]

lemma create_products_db {st : St} (h : st.db.products = none) :
    (create_products_table st).db =
      { st.db with products := some (deriveProducts st.db.staging) } := by
  unfold create_products_table execute_sql
  have hrun : runStmt .createProducts st.db =
      .ok { st.db with products := some (deriveProducts st.db.staging) } := by
    simp only [runStmt]
    rw [h]
  rw [hrun]

lemma update_ratings_db_none {st : St} (h : st.db.purchases = none) :
    (update_missing_review_ratings st).db = st.db := by
  unfold update_missing_review_ratings execute_sql
  have hrun : runStmt .updateRatings st.db =
      .error (missingRelationMessage "purchases") := by
    simp only [runStmt]
    rw [h]
  rw [hrun]

lemma update_ratings_db_some {st : St} {ps : List PurchaseRow}
    (h : st.db.purchases = some ps) :
    (update_missing_review_ratings st).db =
      { st.db with purchases := some (repairRatings ps) } := by
  unfold update_missing_review_ratings execute_sql
  have hrun : runStmt .updateRatings st.db =
      .ok { st.db with purchases := some (repairRatings ps) } := by
    simp only [runStmt]
    rw [h]
  rw [hrun]

lemma transform_and_load_guarded (st : St) (hc : st.db.customers.isSome) :
    (transform_and_load st).db.customers = st.db.customers ∧
    (transform_and_load st).db.products = st.db.products ∧
    (transform_and_load st).db.indexes = st.db.indexes ∧
    (st.db.purchases = none → (transform_and_load st).db.purchases = none) ∧
    (∀ ps, st.db.purchases = some ps →
      (transform_and_load st).db.purchases = some (repairRatings ps)) := by
  have hcc : (convert_yes_no_to_boolean st).db.customers = st.db.customers := rfl
  have hc1 : (convert_yes_no_to_boolean st).db.customers.isSome := by
    rw [hcc]
    exact hc
  rw [transform_and_load_eq, if_pos hc1]
  refine ⟨?_, ?_, ?_, ?_, ?_⟩
  · rcases hpu : (convert_yes_no_to_boolean st).db.purchases with _ | ps
    · rw [update_ratings_db_none hpu]
      exact hcc
    · rw [update_ratings_db_some hpu]
      exact hcc
  · rcases hpu : (convert_yes_no_to_boolean st).db.purchases with _ | ps
    · rw [update_ratings_db_none hpu]
      rfl
    · rw [update_ratings_db_some hpu]
      rfl
  · rcases hpu : (convert_yes_no_to_boolean st).db.purchases with _ | ps
    · rw [update_ratings_db_none hpu]
      rfl
    · rw [update_ratings_db_some hpu]
      rfl
  · intro h
    have hpu : (convert_yes_no_to_boolean st).db.purchases = none := h
    rw [update_ratings_db_none hpu]
    exact h
  · intro ps h
    have hpu : (convert_yes_no_to_boolean st).db.purchases = some ps := h
    rw [update_ratings_db_some hpu]

lemma transform_and_load_fresh (st : St)
    (hc : st.db.customers = none) (hpr : st.db.products = none)
    (hpu : st.db.purchases = none) :
    (transform_and_load st).db.customers =
      some (deriveCustomers (convertStaging st.db.staging)) ∧
    (transform_and_load st).db.products =
      some (deriveProducts (convertStaging st.db.staging)) ∧
    (transform_and_load st).db.purchases =
      some (repairRatings (derivePurchases (convertStaging st.db.staging))) := by
  have hst1 := convert_db st
  have h1c : (convert_yes_no_to_boolean st).db.customers = none := by
    rw [hst1]
    exact hc
  have h1p : (convert_yes_no_to_boolean st).db.products = none := by
    rw [hst1]
    exact hpr
  have h1u : (convert_yes_no_to_boolean st).db.purchases = none := by
    rw [hst1]
    exact hpu
  have h1s : (convert_yes_no_to_boolean st).db.staging =
      convertStaging st.db.staging := by
    rw [hst1]
  have hguard : ¬ (convert_yes_no_to_boolean st).db.customers.isSome := by
    rw [h1c]
    simp
  rw [transform_and_load_eq, if_neg hguard]
  obtain ⟨hIs, hIc, hIp, hIu⟩ := create_index_db_fields (convert_yes_no_to_boolean st)
  set stI := create_index (convert_yes_no_to_boolean st) with hstI
  have hIc2 : stI.db.customers = none := by rw [hIc, h1c]
  have hIs2 : stI.db.staging = convertStaging st.db.staging := by rw [hIs, h1s]
  have hIp2 : stI.db.products = none := by rw [hIp, h1p]
  have hIu2 : stI.db.purchases = none := by rw [hIu, h1u]
  have hCdb := create_customers_db hIc2
  set stC := create_customers_table stI with hstC
  have hCs : stC.db.staging = convertStaging st.db.staging := by
    rw [hCdb]
    show stI.db.staging = _
    exact hIs2
  have hCc : stC.db.customers = some (deriveCustomers (convertStaging st.db.staging)) := by
    rw [hCdb]
    show some (deriveCustomers stI.db.staging) = _
    rw [hIs2]
  have hCp : stC.db.products = none := by
    rw [hCdb]
    show stI.db.products = none
    exact hIp2
  have hCu : stC.db.purchases = none := by
    rw [hCdb]
    show stI.db.purchases = none
    exact hIu2
  have hPdb := create_purchases_db hCu
  set stP := create_purchases_table stC with hstP
  have hPs : stP.db.staging = convertStaging st.db.staging := by
    rw [hPdb]
    show stC.db.staging = _
    exact hCs
  have hPc : stP.db.customers = some (deriveCustomers (convertStaging st.db.staging)) := by
    rw [hPdb]
    show stC.db.customers = _
    exact hCc
  have hPp : stP.db.products = none := by
    rw [hPdb]
    show stC.db.products = none
    exact hCp
  have hPu : stP.db.purchases = some (derivePurchases (convertStaging st.db.staging)) := by
    rw [hPdb]
    show some (derivePurchases stC.db.staging) = _
    rw [hCs]
  have hDdb := create_products_db hPp
  set stD := create_products_table stP with hstD
  have hDc : stD.db.customers = some (deriveCustomers (convertStaging st.db.staging)) := by
    rw [hDdb]
    show stP.db.customers = _
    exact hPc
  have hDp : stD.db.products = some (deriveProducts (convertStaging st.db.staging)) := by
    rw [hDdb]
    show some (deriveProducts stP.db.staging) = _
    rw [hPs]
  have hDu : stD.db.purchases = some (derivePurchases (convertStaging st.db.staging)) := by
    rw [hDdb]
    show stP.db.purchases = _
    exact hPu
  have hF := update_ratings_db_some hDu
  refine ⟨?_, ?_, ?_⟩
  · rw [hF]
    show stD.db.customers = _
    exact hDc
  · rw [hF]
    show stD.db.products = _
    exact hDp
  · rw [hF]

/-- A pipeline state where `customers` already exists but `products` and
`purchases` are missing (e.g. after a partial normalization failure). -/
def stPartial : St := ⟨⟨[], some [], none, none, []⟩, [], []⟩

/-- C7 (amended): on a database where none of the three derived tables
exists, running `transform_and_load` twice creates customers, products and
purchases exactly once: the first invocation creates all three, and the
second invocation leaves all three exactly as the first left them (its
guard sees `customers` and skips the whole creation block; its repair
re-run is a no-op on the already-repaired purchases). For a database where
some derived table already exists this fails — see the counterexample. -/
theorem schema_normalizer_creates_once_on_fresh_db (st : St)
    (hc : st.db.customers = none) (hpr : st.db.products = none)
    (hpu : st.db.purchases = none) :
    (transform_and_load st).db.customers.isSome ∧
    (transform_and_load st).db.products.isSome ∧
    (transform_and_load st).db.purchases.isSome ∧
    (transform_and_load (transform_and_load st)).db.customers =
      (transform_and_load st).db.customers ∧
    (transform_and_load (transform_and_load st)).db.products =
      (transform_and_load st).db.products ∧
    (transform_and_load (transform_and_load st)).db.purchases =
      (transform_and_load st).db.purchases := by
  obtain ⟨h1, h2, h3⟩ := transform_and_load_fresh st hc hpr hpu
  have hcS : (transform_and_load st).db.customers.isSome := by
    rw [h1]
    rfl
  obtain ⟨g1, g2, _, _, g5⟩ := transform_and_load_guarded (transform_and_load st) hcS
  refine ⟨hcS, by rw [h2]; rfl, by rw [h3]; rfl, g1, g2, ?_⟩
  rw [g5 _ h3, h3, repairRatings_idem]

/-- C7 witness: starting from the staging-only state `stY`, the first run
creates the three tables and the second run changes none of them. -/
theorem schema_normalizer_creates_once_on_fresh_db_witness :
    (transform_and_load stY).db.customers.isSome ∧
    (transform_and_load stY).db.products.isSome ∧
    (transform_and_load stY).db.purchases.isSome ∧
    (transform_and_load (transform_and_load stY)).db.customers =
      (transform_and_load stY).db.customers ∧
    (transform_and_load (transform_and_load stY)).db.products =
      (transform_and_load stY).db.products ∧
    (transform_and_load (transform_and_load stY)).db.purchases =
      (transform_and_load stY).db.purchases :=
  schema_normalizer_creates_once_on_fresh_db stY rfl rfl rfl

/-- C7 counterexample: on a database where `customers` already exists but
`products` and `purchases` do not, two invocations of `transform_and_load`
create NO table at all (the guard sees `customers` and skips creation both
times), so "for every database state, invoking twice creates the three
derived tables exactly once" is false. -/
theorem schema_normalizer_twice_creates_nothing_on_partial_db :
    stPartial.db.customers.isSome ∧
    stPartial.db.products = none ∧ stPartial.db.purchases = none ∧
    (transform_and_load (transform_and_load stPartial)).db.products = none ∧
    (transform_and_load (transform_and_load stPartial)).db.purchases = none := by
  decide

/-- A pipeline state where `customers` and `products` exist but
`purchases` is missing: the reachable partial-normalization-failure state
in which exactly one derived table is absent. -/
def stOneMissing : St := ⟨⟨[], some [], some [], none, []⟩, [], []⟩

/-- C10: the normalization guard looks only at the existence of
`customers`. For every state where `customers` exists but `products` or
`purchases` is absent (either one, or both), any number of further
`transform_and_load` runs never creates a missing derived table —
`products` is left exactly as it was, a missing `purchases` stays missing,
some derived table is still absent afterwards — and never creates the
staging `customer_id` index (the index list is unchanged). -/
theorem guard_never_repairs_partial_normalization (st : St) (n : ℕ)
    (hc : st.db.customers.isSome)
    (hmiss : st.db.products = none ∨ st.db.purchases = none) :
    (transform_and_load^[n] st).db.customers.isSome ∧
    (transform_and_load^[n] st).db.products = st.db.products ∧
    (st.db.purchases = none → (transform_and_load^[n] st).db.purchases = none) ∧
    (transform_and_load^[n] st).db.indexes = st.db.indexes ∧
    ((transform_and_load^[n] st).db.products = none ∨
      (transform_and_load^[n] st).db.purchases = none) := by
  have hmain : (transform_and_load^[n] st).db.customers.isSome ∧
      (transform_and_load^[n] st).db.products = st.db.products ∧
      (st.db.purchases = none →
        (transform_and_load^[n] st).db.purchases = none) ∧
      (transform_and_load^[n] st).db.indexes = st.db.indexes := by
    induction n with
    | zero => exact ⟨hc, rfl, fun h => h, rfl⟩
    | succ n ih =>
      obtain ⟨ihc, ihp, ihu, ihi⟩ := ih
      rw [Function.iterate_succ_apply']
      obtain ⟨g1, g2, g3, g4, _⟩ :=
        transform_and_load_guarded (transform_and_load^[n] st) ihc
      exact ⟨by rw [g1]; exact ihc, g2.trans ihp, fun h => g4 (ihu h),
        g3.trans ihi⟩
  obtain ⟨h1, h2, h3, h4⟩ := hmain
  refine ⟨h1, h2, h3, h4, ?_⟩
  rcases hmiss with hp | hu
  · exact Or.inl (h2.trans hp)
  · exact Or.inr (h3 hu)

/-- C10 witness: from the state where only `purchases` is missing
(customers and products both exist), two further runs keep `products`
exactly as it was, leave `purchases` missing, and create no index. -/
theorem guard_never_repairs_partial_normalization_witness :
    (transform_and_load^[2] stOneMissing).db.customers.isSome ∧
    (transform_and_load^[2] stOneMissing).db.products =
      stOneMissing.db.products ∧
    (stOneMissing.db.purchases = none →
      (transform_and_load^[2] stOneMissing).db.purchases = none) ∧
    (transform_and_load^[2] stOneMissing).db.indexes =
      stOneMissing.db.indexes ∧
    ((transform_and_load^[2] stOneMissing).db.products = none ∨
      (transform_and_load^[2] stOneMissing).db.purchases = none) :=
  guard_never_repairs_partial_normalization stOneMissing 2 rfl (Or.inr rfl)

/-- C8: `execute_sql` catches every statement failure — it logs the error
and returns normally with the database unchanged, never re-raising — and
`transform_and_load` therefore submits every step of its pipeline
regardless of earlier failures: its statement trace is always the full
guarded sequence, ending with the repair step. -/
theorem execute_sql_swallows_and_pipeline_continues :
    (∀ (s : Stmt) (st : St) (e : String), runStmt s st.db = .error e →
      execute_sql s st =
        { st with log := st.log ++ [e], trace := st.trace ++ [s] }) ∧
    ∀ st : St, (transform_and_load st).trace = st.trace ++
      (if st.db.customers.isSome
       then [Stmt.convertYesNo, Stmt.updateRatings]
       else [Stmt.convertYesNo, Stmt.createIndex "idx_customer_id",
         Stmt.createCustomers, Stmt.createPurchases, Stmt.createProducts,
         Stmt.updateRatings]) := by
  constructor
  · intro s st e h
    unfold execute_sql
    rw [h]
  · intro st
    have hcc : (convert_yes_no_to_boolean st).db.customers = st.db.customers :=
      rfl
    rw [transform_and_load_eq]
    by_cases hc : st.db.customers.isSome
    · have hc1 : (convert_yes_no_to_boolean st).db.customers.isSome := by
        rw [hcc]
        exact hc
      rw [if_pos hc1, if_pos hc]
      unfold update_missing_review_ratings convert_yes_no_to_boolean
      rw [execute_sql_trace, execute_sql_trace, List.append_assoc]
      rfl
    · have hc1 : ¬ (convert_yes_no_to_boolean st).db.customers.isSome := by
        rw [hcc]
        exact hc
      rw [if_neg hc1, if_neg hc]
      unfold update_missing_review_ratings create_products_table
        create_purchases_table create_customers_table create_index
        convert_yes_no_to_boolean
      rw [execute_sql_trace, execute_sql_trace, execute_sql_trace,
        execute_sql_trace, execute_sql_trace, execute_sql_trace]
      simp [List.append_assoc]

/-- C8 witness: on `stPartial` (whose `customers` table exists) the
`CREATE TABLE customers` statement fails; `execute_sql` returns the state
with the error logged and the database untouched, and the pipeline trace
of a full run still contains every step including the final repair. -/
theorem execute_sql_swallows_and_pipeline_continues_witness :
    execute_sql .createCustomers stPartial =
      { stPartial with
        log := stPartial.log ++ [relationExistsMessage "customers"],
        trace := stPartial.trace ++ [Stmt.createCustomers] } ∧
    (transform_and_load stPartial).trace = stPartial.trace ++
      [Stmt.convertYesNo, Stmt.updateRatings] :=
  ⟨execute_sql_swallows_and_pipeline_continues.1 .createCustomers stPartial
      (relationExistsMessage "customers") rfl,
   execute_sql_swallows_and_pipeline_continues.2 stPartial⟩
